import Mathlib

/-!
Verification of the TF-IDF lecture notebooks (`Lecture1-Tfidf`, `Lecture1-Stemming`):
a shallow embedding of the notebook's tokenization, vocabulary building,
term/document frequency counting, IDF weighting, diagonal-matrix TF-IDF
multiplication and L2 normalization, together with theorems settling the
specification's claims about them.
-/

/-! ## Tokenization: Python `str.split()` -/

/-- Auxiliary splitter: walks the character list accumulating the current word
(reversed); whitespace runs separate words and empty words are dropped,
matching Python `str.split()` with no arguments. -/
def splitWsAux : List Char → List Char → List String
  | [], acc => if acc.isEmpty then [] else [String.mk acc.reverse]
  | c :: cs, acc =>
      if c.isWhitespace then
        if acc.isEmpty then splitWsAux cs []
        else String.mk acc.reverse :: splitWsAux cs []
      else splitWsAux cs (c :: acc)

/-- `document.split()` from the notebook: whitespace tokenization. -/
def splitWs (s : String) : List String :=
  splitWsAux s.data []

/-! ## Vocabulary and frequency counting (`Lecture1-Tfidf`) -/

/-- `build_lexicon(corpus)`: the set of distinct whitespace tokens across the
corpus, built by folding `lexicon.update([word for word in doc.split()])`
over the documents starting from the empty set. -/
def build_lexicon (corpus : List String) : Finset String :=
  corpus.foldl (fun lexicon doc => lexicon ∪ (splitWs doc).toFinset) ∅

/-- `freq(term, document)`: `document.split().count(term)`. -/
def freq (term document : String) : Nat :=
  (splitWs document).count term

/-- `tf(term, document)`: delegates to `freq`. -/
def tf (term document : String) : Nat :=
  freq term document

/-- `numDocsContaining(word, doclist)`: counts the documents in which
`freq(word, doc) > 0`, exactly as the notebook's loop increments `doccount`. -/
def numDocsContaining (word : String) (doclist : List String) : Nat :=
  doclist.countP (fun doc => decide (0 < freq word doc))

/-- The notebook's training corpus `mydoclist`. -/
def mydoclist : List String :=
  ["Julie loves me more than Linda loves me",
   "Jane likes me more than Julie loves me",
   "He likes basketball more than baseball"]

/-- `idf(word, doclist)`: the notebook computes `np.log(n_samples / 1+df)`,
which by Python operator precedence is `log((n_samples / 1) + df)`. -/
noncomputable def idf (word : String) (doclist : List String) : ℝ :=
  Real.log ((doclist.length : ℝ) / 1 + (numDocsContaining word doclist : ℝ))

/-- `tf_vector`: the row `[tf(word, doc) for word in vocabulary]` built for
each document (the rows of `doc_term_matrix`). -/
def tf_vector (vocabulary : List String) (doc : String) : List Nat :=
  vocabulary.map (fun word => tf word doc)

/-- `my_idf_vector`, generalized over the vocabulary enumeration and corpus:
`[idf(word, doclist) for word in vocabulary]`. -/
noncomputable def my_idf_vector (vocabulary doclist : List String) : List ℝ :=
  vocabulary.map (fun word => idf word doclist)

/-! ## L2 normalization -/

open Classical in
/-- `l2_normalizer(vec)`: divides each entry by `math.sqrt(sum(el**2))`.
The notebook has no guard for a zero denominator: on a nonempty vector of
zero norm, Python raises `ZeroDivisionError` (integer entries) or produces
`NaN` entries (numpy float entries); both failure modes are modelled as
`Except.error ()`.  On the empty list the comprehension yields `[]` before
any division happens, so the result is `Except.ok []`. -/
noncomputable def l2_normalizer (vec : List ℝ) : Except Unit (List ℝ) :=
  let denom := (vec.map (fun el => el ^ 2)).sum
  if vec ≠ [] ∧ Real.sqrt denom = 0 then Except.error ()
  else Except.ok (vec.map (fun el => el / Real.sqrt denom))

/-! ## The diagonal IDF matrix and `np.dot` -/

/-- `build_idf_matrix(idf_vector)`: `np.zeros((n, n))` with the IDF vector
filled in on the diagonal. -/
def build_idf_matrix (idf_vector : List ℝ) : List (List ℝ) :=
  (List.range idf_vector.length).map (fun i =>
    (List.range idf_vector.length).map (fun j =>
      if j = i then idf_vector.getD i 0 else 0))

/-- `np.dot(v, M)` for a row vector `v` and matrix `M` (list of rows):
entry `j` of the result is `∑ i, v i * M i j`. -/
def npDotVecMat (v : List ℝ) (M : List (List ℝ)) : List ℝ :=
  (List.range ((M.headD []).length)).map
    (fun j => (List.zipWith (fun x row => x * row.getD j 0) v M).sum)

/-- A row of `doc_term_matrix_tfidf`: the document's term-frequency vector
multiplied by the diagonal IDF matrix via `np.dot`. -/
noncomputable def tfidf_row (vocabulary corpus : List String) (doc : String) : List ℝ :=
  npDotVecMat ((tf_vector vocabulary doc).map (Nat.cast : Nat → ℝ))
    (build_idf_matrix (my_idf_vector vocabulary corpus))

/-! ## Cleaning pipeline (`Lecture1-Stemming`) -/

/-- The code points of Python's `string.punctuation`
(ASCII 33–47, 58–64, 91–96, 123–126). -/
def punctuationCodes : List Nat :=
  [33, 34, 35, 36, 37, 38, 39, 40, 41, 42, 43, 44, 45, 46, 47,
   58, 59, 60, 61, 62, 63, 64, 91, 92, 93, 94, 95, 96, 123, 124, 125, 126]

/-- `string.punctuation` as a list of characters. -/
def string_punctuation : List Char :=
  punctuationCodes.map Char.ofNat

/-- `regex.sub(u'', token)` for the character class built from
`string.punctuation`: deletes every punctuation character of the token. -/
def removePunct (token : String) : String :=
  String.mk (token.data.filter (fun c => !(string_punctuation.contains c)))

/-- The `tokenized_docs_no_punctuation` loop: strip punctuation from each
token and keep only the tokens that did not become the empty string. -/
def tokenized_docs_no_punctuation (tokenized_docs : List (List String)) :
    List (List String) :=
  tokenized_docs.map (fun review =>
    (review.map removePunct).filter (fun t => decide (t ≠ "")))

/-- The English stopword list shipped with NLTK (the classic 153-word list
used by `stopwords.words('english')` in the notebook's NLTK era); external
data consumed by the stopword-removal cell. -/
def stopwords_english : List String :=
  ["i", "me", "my", "myself", "we", "our", "ours", "ourselves", "you",
   "your", "yours", "yourself", "yourselves", "he", "him", "his", "himself",
   "she", "her", "hers", "herself", "it", "its", "itself", "they", "them",
   "their", "theirs", "themselves", "what", "which", "who", "whom", "this",
   "that", "these", "those", "am", "is", "are", "was", "were", "be", "been",
   "being", "have", "has", "had", "having", "do", "does", "did", "doing",
   "a", "an", "the", "and", "but", "if", "or", "because", "as", "until",
   "while", "of", "at", "by", "for", "with", "about", "against", "between",
   "into", "through", "during", "before", "after", "above", "below", "to",
   "from", "up", "down", "in", "out", "on", "off", "over", "under", "again",
   "further", "then", "once", "here", "there", "when", "where", "why",
   "how", "all", "any", "both", "each", "few", "more", "most", "other",
   "some", "such", "no", "nor", "not", "only", "own", "same", "so", "than",
   "too", "very", "s", "t", "can", "will", "just", "don", "should", "now"]

/-- The `tokenized_docs_no_stopwords` loop: keep a word iff
`not word in stopwords.words('english')` (a case-sensitive membership test). -/
def tokenized_docs_no_stopwords (docs : List (List String)) :
    List (List String) :=
  docs.map (fun doc => doc.filter (fun word => decide (word ∉ stopwords_english)))

/-- A token is lowercase when it contains no uppercase character. -/
def isLowercaseToken (s : String) : Bool :=
  s.data.all (fun c => !c.isUpper)

example : splitWs "Julie loves me" = ["Julie", "loves", "me"] := by decide
example : freq "loves" "Julie loves me more than Linda loves me" = 2 := by decide
example : numDocsContaining "basketball" mydoclist = 1 := by decide
example : removePunct "_learn" = "learn" := by decide
example :
    tokenized_docs_no_stopwords (tokenized_docs_no_punctuation [["Here", "are", "sentences", "."]])
      = [["Here", "sentences"]] := by decide

/-! ## Helper lemmas -/

/-- Folding lexicon updates over a corpus, with an arbitrary starting set. -/
lemma mem_foldl_lexicon (w : String) (corpus : List String) (init : Finset String) :
    w ∈ corpus.foldl (fun lexicon doc => lexicon ∪ (splitWs doc).toFinset) init ↔
      w ∈ init ∨ ∃ doc ∈ corpus, w ∈ splitWs doc := by
  induction corpus generalizing init with
  | nil => simp
  | cons d rest ih =>
      simp only [List.foldl_cons, ih, Finset.mem_union, List.mem_toFinset,
        List.mem_cons]
      constructor
      · rintro ((h | h) | ⟨doc, hd, hw⟩)
        · exact Or.inl h
        · exact Or.inr ⟨d, Or.inl rfl, h⟩
        · exact Or.inr ⟨doc, Or.inr hd, hw⟩
      · rintro (h | ⟨doc, (rfl | hd), hw⟩)
        · exact Or.inl (Or.inl h)
        · exact Or.inl (Or.inr hw)
        · exact Or.inr ⟨doc, hd, hw⟩

/-- A word is in the built lexicon iff some corpus document contains it. -/
lemma mem_build_lexicon (w : String) (corpus : List String) :
    w ∈ build_lexicon corpus ↔ ∃ doc ∈ corpus, w ∈ splitWs doc := by
  simp [build_lexicon, mem_foldl_lexicon]

/-- `freq` is positive exactly on the tokens of the document. -/
lemma freq_pos_iff (term document : String) :
    0 < freq term document ↔ term ∈ splitWs document := by
  simp [freq, List.count_pos_iff]

/-- Every word of the lexicon occurs in at least one corpus document. -/
lemma numDocsContaining_pos (w : String) (corpus : List String)
    (hw : w ∈ build_lexicon corpus) : 0 < numDocsContaining w corpus := by
  obtain ⟨doc, hdoc, hmem⟩ := (mem_build_lexicon w corpus).mp hw
  exact List.countP_pos_iff.mpr ⟨doc, hdoc, decide_eq_true ((freq_pos_iff w doc).mpr hmem)⟩

/-- On a nonempty corpus, the (buggy) notebook IDF of any lexicon word is
strictly positive: it equals `log(N + df)` with `N ≥ 1` and `df ≥ 1`. -/
lemma idf_pos (w : String) (corpus : List String) (hc : corpus ≠ [])
    (hw : w ∈ build_lexicon corpus) : 0 < idf w corpus := by
  have hN : 1 ≤ corpus.length := List.length_pos.mpr hc
  have hdf : 1 ≤ numDocsContaining w corpus := numDocsContaining_pos w corpus hw
  have hN' : (1 : ℝ) ≤ (corpus.length : ℝ) := by exact_mod_cast hN
  have hdf' : (1 : ℝ) ≤ (numDocsContaining w corpus : ℝ) := by exact_mod_cast hdf
  unfold idf
  apply Real.log_pos
  rw [div_one]
  linarith

/-- The sum of squares of a real list is nonnegative. -/
lemma sumsq_nonneg (vec : List ℝ) : 0 ≤ (vec.map (fun el => el ^ 2)).sum := by
  apply List.sum_nonneg
  intro x hx
  obtain ⟨el, -, rfl⟩ := List.mem_map.mp hx
  positivity

/-- When the sum of squares is nonzero, `l2_normalizer` succeeds and returns
the entrywise division by the Euclidean norm. -/
lemma l2_normalizer_ok (vec : List ℝ)
    (h : (vec.map (fun el => el ^ 2)).sum ≠ 0) :
    l2_normalizer vec =
      Except.ok (vec.map
        (fun el => el / Real.sqrt ((vec.map (fun el => el ^ 2)).sum))) := by
  have hpos : 0 < (vec.map (fun el => el ^ 2)).sum :=
    lt_of_le_of_ne (sumsq_nonneg vec) (Ne.symm h)
  unfold l2_normalizer
  rw [if_neg]
  rintro ⟨-, hs⟩
  exact h (le_antisymm (Real.sqrt_eq_zero'.mp hs) (sumsq_nonneg vec))

/-- Dividing a list of nonzero total square by its Euclidean norm yields a
list whose squares sum to `1`. -/
lemma l2_normalized_sumsq (vec : List ℝ)
    (h : (vec.map (fun el => el ^ 2)).sum ≠ 0) :
    ((vec.map
        (fun el => el / Real.sqrt ((vec.map (fun el => el ^ 2)).sum))).map
      (fun el => el ^ 2)).sum = 1 := by
  have hpos : 0 < (vec.map (fun el => el ^ 2)).sum :=
    lt_of_le_of_ne (sumsq_nonneg vec) (Ne.symm h)
  rw [List.map_map]
  simp only [Function.comp_def, div_eq_mul_inv, mul_pow, inv_pow,
    Real.sq_sqrt hpos.le]
  rw [List.sum_map_mul_right]
  exact mul_inv_cancel₀ h

/-- Full success form: nonzero sum of squares gives a normalized output of
Euclidean norm `1`. -/
lemma l2_normalizer_norm_one (vec : List ℝ)
    (h : (vec.map (fun el => el ^ 2)).sum ≠ 0) :
    ∃ out, l2_normalizer vec = Except.ok out ∧
      Real.sqrt ((out.map (fun el => el ^ 2)).sum) = 1 :=
  ⟨_, l2_normalizer_ok vec h, by rw [l2_normalized_sumsq vec h, Real.sqrt_one]⟩

/-- Mapping the constant zero over a list gives a replicate of zeros. -/
lemma map_zero_replicate {α : Type} (l : List α) :
    l.map (fun _ => (0 : ℝ)) = List.replicate l.length 0 := by
  induction l with
  | nil => rfl
  | cons x xs ih => simp [ih, List.replicate_succ]

/-- Indexing a replicated-zero list with default `0` always yields `0`. -/
lemma getD_replicate_zero (n j : Nat) :
    (List.replicate n (0 : ℝ)).getD j 0 = 0 := by
  induction n generalizing j with
  | zero => simp
  | succ m ih =>
      cases j with
      | zero => simp [List.replicate_succ]
      | succ k => simp [List.replicate_succ, ih]

/-- Zipping two lists with the constant-zero function sums to zero. -/
lemma sum_zipWith_zero {α β : Type} (l₁ : List α) (l₂ : List β) :
    (List.zipWith (fun _ _ => (0 : ℝ)) l₁ l₂).sum = 0 := by
  induction l₁ generalizing l₂ with
  | nil => simp
  | cons x xs ih =>
      cases l₂ with
      | nil => simp
      | cons y ys => simp [ih]

/-- The empty IDF matrix. -/
lemma build_idf_matrix_nil : build_idf_matrix [] = [] := by
  simp [build_idf_matrix]

/-- Head-row length of the IDF matrix equals the IDF vector length. -/
lemma build_idf_matrix_head_length (w : List ℝ) :
    ((build_idf_matrix w).headD []).length = w.length := by
  cases w with
  | nil => simp [build_idf_matrix]
  | cons x xs => simp [build_idf_matrix, List.range_succ_eq_map]

/-- Recursive characterization of the diagonal matrix: the first row is the
head followed by zeros, and the remaining rows are the smaller diagonal
matrix with a zero column prepended. -/
lemma build_idf_matrix_cons (x : ℝ) (xs : List ℝ) :
    build_idf_matrix (x :: xs) =
      (x :: List.replicate xs.length 0) ::
        (build_idf_matrix xs).map (fun row => 0 :: row) := by
  unfold build_idf_matrix
  rw [List.length_cons, List.range_succ_eq_map]
  simp [List.map_map, Function.comp_def, List.getD_cons_succ, add_left_inj,
    Nat.succ_ne_zero, map_zero_replicate]

/-- `np.dot` of a vector with the diagonal IDF matrix is the entrywise
product, whenever the vector and the diagonal have equal length. -/
lemma npDot_build_idf_matrix (w : List ℝ) :
    ∀ v : List ℝ, v.length = w.length →
      npDotVecMat v (build_idf_matrix w) = List.zipWith (fun a b => a * b) v w := by
  induction w with
  | nil =>
      intro v hv
      rw [List.length_eq_zero.mp hv, build_idf_matrix_nil]
      rfl
  | cons x xs ih =>
      intro v hv
      cases v with
      | nil => simp at hv
      | cons a vs =>
          have hvs : vs.length = xs.length := by simpa using hv
          rw [build_idf_matrix_cons]
          unfold npDotVecMat
          rw [List.headD_cons, List.length_cons, List.length_replicate,
            List.range_succ_eq_map, List.map_cons, List.map_map,
            List.zipWith_cons_cons]
          congr 1
          · rw [List.zipWith_map_right]
            simp only [List.getD_cons_zero, mul_zero, List.sum_cons]
            rw [sum_zipWith_zero, add_zero]
          · rw [← ih vs hvs]
            unfold npDotVecMat
            rw [build_idf_matrix_head_length]
            apply List.map_congr_left
            intro j _
            show (List.zipWith (fun p row => p * row.getD (j + 1) 0)
                (a :: vs)
                ((x :: List.replicate xs.length 0) ::
                  (build_idf_matrix xs).map (fun row => 0 :: row))).sum
              = (List.zipWith (fun p row => p * row.getD j 0) vs
                  (build_idf_matrix xs)).sum
            rw [List.zipWith_cons_cons, List.getD_cons_succ,
              getD_replicate_zero, List.zipWith_map_right]
            simp only [List.getD_cons_succ, mul_zero, List.sum_cons, zero_add]

/-- Zipping the images of two maps over the same list multiplies pointwise. -/
lemma zipWith_mul_map_map {α : Type} (f g : α → ℝ) (l : List α) :
    List.zipWith (fun a b => a * b) (l.map f) (l.map g)
      = l.map (fun a => f a * g a) := by
  induction l with
  | nil => rfl
  | cons x xs ih => simp [ih]

/-- The TF-IDF row computed via the diagonal matrix equals the entrywise
product of the term frequencies with the IDF values of the vocabulary. -/
lemma tfidf_row_eq_map (vocabulary corpus : List String) (doc : String) :
    tfidf_row vocabulary corpus doc
      = vocabulary.map (fun w => (freq w doc : ℝ) * idf w corpus) := by
  unfold tfidf_row
  rw [npDot_build_idf_matrix _ _ (by simp [tf_vector, my_idf_vector])]
  unfold tf_vector my_idf_vector
  rw [List.map_map, zipWith_mul_map_map]
  rfl

/-- With no guard in `l2_normalizer`, a nonempty vector of zero norm hits the
division by `math.sqrt(0)` and fails. -/
lemma l2_normalizer_error (vec : List ℝ) (hne : vec ≠ [])
    (h : (vec.map (fun el => el ^ 2)).sum = 0) :
    l2_normalizer vec = Except.error () := by
  simp only [l2_normalizer]
  exact if_pos ⟨hne, by rw [h, Real.sqrt_zero]⟩

/-! ## Claims -/

/-- C1: the spec states `idf` computes `log(N / (1 + df(t)))` and that a
3-document corpus with `df(t) = 1` gives `log 1.5`.  The code computes
`np.log(n_samples / 1+df)`, which Python parses as `log(N/1 + df)`: on the
notebook corpus (`N = 3`) the term `"basketball"` has `df = 1` and the
computed IDF is `log 4`, not `log(3/(1+1)) = log 1.5`. -/
theorem c1_idf_precedence_bug :
    mydoclist.length = 3 ∧
    numDocsContaining "basketball" mydoclist = 1 ∧
    idf "basketball" mydoclist = Real.log 4 ∧
    idf "basketball" mydoclist ≠ Real.log (3 / (1 + 1)) := by
  have h1 : mydoclist.length = 3 := by decide
  have h2 : numDocsContaining "basketball" mydoclist = 1 := by decide
  have h3 : idf "basketball" mydoclist = Real.log 4 := by
    unfold idf
    rw [h1, h2]
    norm_num
  have h4 : Real.log (3 / (1 + 1)) < Real.log 4 :=
    Real.log_lt_log (by norm_num) (by norm_num)
  exact ⟨h1, h2, h3, by rw [h3]; exact h4.ne'⟩

/-- C2: the spec requires a zero-norm input to be guarded and mapped to the
zero vector, never raising or producing NaN/Inf.  The code has no guard: on
the nonempty zero vector `[0, 0]` the division by `math.sqrt(0)` fails
(`ZeroDivisionError` on integer entries, NaN entries on numpy floats),
modelled as `Except.error ()`. -/
theorem c2_l2_normalizer_unguarded :
    (([(0 : ℝ), 0]).map (fun el => el ^ 2)).sum = 0 ∧
    l2_normalizer [(0 : ℝ), 0] = Except.error () :=
  ⟨by norm_num, l2_normalizer_error _ (by simp) (by norm_num)⟩

/-- C3 counterexample: fitting on the empty corpus does not fail;
`build_lexicon` is total and returns the empty vocabulary. -/
theorem c3_empty_corpus_counterexample :
    build_lexicon [] = (∅ : Finset String) := rfl

/-- C3 (amended): fitting on an empty training corpus silently produces a
zero-length vocabulary; no error is raised. -/
theorem c3_empty_corpus_empty_vocab :
    (build_lexicon []).card = 0 := rfl

/-- C4: for a nonempty training corpus, a vocabulary drawn from its lexicon
and a document containing at least one in-vocabulary term, the L2-normalized
TF-IDF row exists (no division failure) and has Euclidean norm exactly 1. -/
theorem c4_tfidf_row_norm_one (corpus vocabulary : List String) (doc : String)
    (hcorpus : corpus ≠ [])
    (hvocab : ∀ w ∈ vocabulary, w ∈ build_lexicon corpus)
    (hdoc : ∃ w ∈ vocabulary, 0 < freq w doc) :
    ∃ out, l2_normalizer (tfidf_row vocabulary corpus doc) = Except.ok out ∧
      Real.sqrt ((out.map (fun el => el ^ 2)).sum) = 1 := by
  apply l2_normalizer_norm_one
  obtain ⟨w₀, hw₀, hfreq⟩ := hdoc
  have hidf : 0 < idf w₀ corpus := idf_pos w₀ corpus hcorpus (hvocab w₀ hw₀)
  have hentry : ((freq w₀ doc : ℝ) * idf w₀ corpus)
      ∈ tfidf_row vocabulary corpus doc := by
    rw [tfidf_row_eq_map]
    exact List.mem_map_of_mem _ hw₀
  have hpos : 0 < (freq w₀ doc : ℝ) * idf w₀ corpus :=
    mul_pos (by exact_mod_cast hfreq) hidf
  have hsq : ((freq w₀ doc : ℝ) * idf w₀ corpus) ^ 2
      ∈ (tfidf_row vocabulary corpus doc).map (fun el => el ^ 2) :=
    List.mem_map_of_mem _ hentry
  have hnonneg : ∀ y ∈ (tfidf_row vocabulary corpus doc).map (fun el => el ^ 2),
      0 ≤ y := by
    intro y hy
    obtain ⟨e, -, rfl⟩ := List.mem_map.mp hy
    positivity
  have hle := List.single_le_sum hnonneg _ hsq
  exact (lt_of_lt_of_le (pow_pos hpos 2) hle).ne'

/-- C4 witness: a concrete corpus, vocabulary and document satisfying the
hypotheses. -/
theorem c4_tfidf_row_norm_one_witness :
    ((["cat sat", "dog ran"] : List String) ≠ []) ∧
    (∀ w ∈ (["cat"] : List String), w ∈ build_lexicon ["cat sat", "dog ran"]) ∧
    (∃ w ∈ (["cat"] : List String), 0 < freq w "cat cat") ∧
    (∃ out, l2_normalizer (tfidf_row ["cat"] ["cat sat", "dog ran"] "cat cat")
        = Except.ok out ∧ Real.sqrt ((out.map (fun el => el ^ 2)).sum) = 1) :=
  ⟨by decide, by decide, by decide,
    c4_tfidf_row_norm_one _ _ _ (by decide) (by decide) (by decide)⟩

/-- C5 counterexample: the cleaning pipeline never lowercases.  Feeding the
tokenizer output `[["Here", "are", "sentences", "."]]` through punctuation
stripping and stopword removal keeps the capitalized token `"Here"` (the
case-sensitive stopword test does not match it against `"here"`), so the
cleaned document contains a non-lowercase token. -/
theorem c5_uppercase_token_survives :
    tokenized_docs_no_stopwords
        (tokenized_docs_no_punctuation [["Here", "are", "sentences", "."]])
      = [["Here", "sentences"]] ∧
    isLowercaseToken "Here" = false :=
  ⟨by decide, by decide⟩

/-- C5 (amended): the pipeline performs no lowercasing — every token of a
cleaned document is exactly the punctuation-stripped form of a tokenizer
output token (letter case preserved), is not the empty string, and is not a
(lowercase) stopword. -/
theorem c5_cleaning_preserves_case (docs : List (List String))
    (doc : List String) (tok : String)
    (hdoc : doc ∈ tokenized_docs_no_stopwords (tokenized_docs_no_punctuation docs))
    (htok : tok ∈ doc) :
    (∃ review ∈ docs, ∃ orig ∈ review, tok = removePunct orig) ∧
      tok ∉ stopwords_english ∧ tok ≠ "" := by
  unfold tokenized_docs_no_stopwords at hdoc
  obtain ⟨predoc, hpre, rfl⟩ := List.mem_map.mp hdoc
  unfold tokenized_docs_no_punctuation at hpre
  obtain ⟨review, hrev, rfl⟩ := List.mem_map.mp hpre
  simp only [List.mem_filter, List.mem_map, decide_eq_true_eq] at htok
  obtain ⟨⟨⟨orig, horig, rfl⟩, hne⟩, hstop⟩ := htok
  exact ⟨⟨review, hrev, orig, horig, rfl⟩, hstop, hne⟩

/-- C5 witness: concrete instantiation of the amended claim. -/
theorem c5_cleaning_preserves_case_witness :
    ((["Here"] : List String)
        ∈ tokenized_docs_no_stopwords (tokenized_docs_no_punctuation [["Here", "."]])) ∧
    ("Here" ∈ (["Here"] : List String)) ∧
    ((∃ review ∈ [["Here", "."]], ∃ orig ∈ review, "Here" = removePunct orig) ∧
      "Here" ∉ stopwords_english ∧ "Here" ≠ "") :=
  ⟨by decide, by decide,
    c5_cleaning_preserves_case [["Here", "."]] ["Here"] "Here"
      (by decide) (by decide)⟩

/-- C6: fitting is invariant under permutation of the corpus — a permuted
corpus yields the same vocabulary set and the same IDF value for every
term. -/
theorem c6_fit_permutation_invariant (c₁ c₂ : List String) (w : String)
    (h : c₁.Perm c₂) :
    build_lexicon c₁ = build_lexicon c₂ ∧ idf w c₁ = idf w c₂ := by
  constructor
  · ext a
    rw [mem_build_lexicon, mem_build_lexicon]
    constructor
    · rintro ⟨doc, hd, hw⟩
      exact ⟨doc, h.mem_iff.mp hd, hw⟩
    · rintro ⟨doc, hd, hw⟩
      exact ⟨doc, h.mem_iff.mpr hd, hw⟩
  · unfold idf numDocsContaining
    rw [h.length_eq, h.countP_eq]

/-- C6 witness: a two-document corpus and its swap. -/
theorem c6_fit_permutation_invariant_witness :
    ((["He likes basketball", "Julie loves me"] : List String).Perm
        ["Julie loves me", "He likes basketball"]) ∧
    (build_lexicon ["He likes basketball", "Julie loves me"]
        = build_lexicon ["Julie loves me", "He likes basketball"] ∧
      idf "me" ["He likes basketball", "Julie loves me"]
        = idf "me" ["Julie loves me", "He likes basketball"]) :=
  ⟨List.Perm.swap _ _ _,
    c6_fit_permutation_invariant _ _ _ (List.Perm.swap _ _ _)⟩

/-- C7: multiplying a term-frequency vector by the diagonal matrix built
from the IDF vector (`np.dot(v, diag(w))`) equals the entrywise product of
the two vectors, for vectors of equal length. -/
theorem c7_npdot_diag_eq_entrywise (v w : List ℝ) (h : v.length = w.length) :
    npDotVecMat v (build_idf_matrix w) = List.zipWith (fun a b => a * b) v w :=
  npDot_build_idf_matrix w v h

/-- C7 witness: concrete vectors. -/
theorem c7_npdot_diag_eq_entrywise_witness :
    (([1, 2] : List ℝ).length = ([3, 4] : List ℝ).length) ∧
    npDotVecMat [1, 2] (build_idf_matrix [3, 4])
      = List.zipWith (fun a b => a * b) [1, 2] [3, 4] :=
  ⟨rfl, c7_npdot_diag_eq_entrywise [1, 2] [3, 4] rfl⟩

/-- C8: the term-frequency row built for any document has length equal to
the vocabulary size fixed at fit time, whatever the document contains. -/
theorem c8_tf_vector_length (vocabulary : List String) (doc : String) :
    (tf_vector vocabulary doc).length = vocabulary.length := by
  unfold tf_vector
  exact List.length_map _ _

/-- C9: `freq` (and hence `tf`) returns 0, with no failure, for a term that
does not occur in the document. -/
theorem c9_freq_zero_of_not_mem (term document : String)
    (h : term ∉ splitWs document) : freq term document = 0 := by
  unfold freq
  exact List.count_eq_zero.mpr h

/-- C9 witness: a term absent from a concrete document. -/
theorem c9_freq_zero_of_not_mem_witness :
    ("zebra" ∉ splitWs "Julie loves me") ∧ freq "zebra" "Julie loves me" = 0 :=
  ⟨by decide, c9_freq_zero_of_not_mem _ _ (by decide)⟩

/-- C10: the punctuation-removal step never emits an empty-string token —
tokens reduced to the empty string by punctuation stripping are dropped. -/
theorem c10_no_empty_tokens (docs : List (List String)) (doc : List String)
    (tok : String) (hdoc : doc ∈ tokenized_docs_no_punctuation docs)
    (htok : tok ∈ doc) : tok ≠ "" := by
  unfold tokenized_docs_no_punctuation at hdoc
  obtain ⟨review, hrev, rfl⟩ := List.mem_map.mp hdoc
  simp only [List.mem_filter, decide_eq_true_eq] at htok
  exact htok.2

/-- C10 witness: stripping `[["_learn", "...", "data."]]` drops the token
that became empty and keeps nonempty ones. -/
theorem c10_no_empty_tokens_witness :
    ((["learn", "data"] : List String)
        ∈ tokenized_docs_no_punctuation [["_learn", "...", "data."]]) ∧
    ("learn" ∈ (["learn", "data"] : List String)) ∧ "learn" ≠ "" :=
  ⟨by decide, by decide,
    c10_no_empty_tokens [["_learn", "...", "data."]] ["learn", "data"] "learn"
      (by decide) (by decide)⟩
